import Mathlib

/-!
Verification of the x402 Aptos "exact" payment scheme (aptos-labs/x402).

This file gives a shallow embedding of the scheme's payload codec, the
facilitator's `verify`/`settle` pipeline and the server-side money/price
resolution, translated from the TypeScript sources, and proves properties
of the natural-language specification against them.

External SDK operations (BCS transaction deserialization, chain RPC calls
such as balance queries, simulation, submission and confirmation waiting)
are modelled as explicit oracle parameters/environments: the embedding
captures exactly how the repository's code branches on their results.
-/

namespace X402Aptos

/-! ## Decimal digit machinery

Models JavaScript's decimal rendering (`BigInt.prototype.toString(10)`,
`JSON.stringify` of numbers) and decimal parsing (`BigInt(string)` on digit
strings, `JSON.parse` of numbers). -/

/-- Decidable test for an ASCII decimal digit character. -/
def isDigitChar (c : Char) : Bool :=
  48 ≤ c.toNat && c.toNat ≤ 57

/-- The ASCII character of a single decimal digit. -/
def digitChar (d : Nat) : Char :=
  Char.ofNat (48 + d)

/-- Fuel-driven digit expansion; with fuel above `n` it yields the decimal
digits of `n`, most significant first (structural recursion on the fuel so
the kernel can evaluate it). -/
def natToCharsAux : Nat → Nat → List Char
  | 0, _ => []
  | fuel + 1, n =>
    if n < 10 then [digitChar n]
    else natToCharsAux fuel (n / 10) ++ [digitChar (n % 10)]

/-- Decimal digit characters of a natural number, most significant first.
Matches the canonical decimal rendering JavaScript produces for
nonnegative integers (no sign, no leading zeros). -/
def natToChars (n : Nat) : List Char :=
  natToCharsAux (n + 1) n

/-- Canonical decimal string of a natural number (JS `toString(10)`). -/
def natToString (n : Nat) : String :=
  ⟨natToChars n⟩

/-- Value of a list of decimal digit characters (most significant first). -/
def digitsVal (cs : List Char) : Nat :=
  cs.foldl (fun a c => a * 10 + (c.toNat - 48)) 0

/-- Parses a nonempty all-digit string to its value; `none` otherwise.
Models `BigInt(s)` on the nonnegative decimal strings this repository
feeds it (`none` corresponds to `BigInt` throwing on a malformed string). -/
def natOfDigits? (s : String) : Option Nat :=
  if s.data ≠ [] ∧ s.data.all isDigitChar then some (digitsVal s.data) else none

/-- Holds when a character list does not start with a decimal digit, so a
maximal-munch number parse stops exactly at its front. -/
def leadsNonDigit : List Char → Bool
  | [] => true
  | c :: _ => !isDigitChar c

/-- Consumes a maximal run of leading decimal digits, folding them onto an
accumulator; returns the value together with the unconsumed remainder. -/
def parseDigits : List Char → Nat → Nat × List Char
  | [], acc => (acc, [])
  | c :: cs, acc =>
    if isDigitChar c then parseDigits cs (acc * 10 + (c.toNat - 48))
    else (acc, c :: cs)

/-- Parses a decimal number (at least one digit) from the front of a
character list, as `JSON.parse` does for the nonnegative integers that
appear in the payment envelope. -/
def parseNat? : List Char → Option (Nat × List Char)
  | [] => none
  | c :: cs =>
    if isDigitChar c then some (parseDigits cs (c.toNat - 48)) else none

/-! ## Base64 (RFC 4648 with padding)

Models `Buffer.prototype.toString("base64")` and, on its image,
`Buffer.from(string, "base64")` as used by the payload codec
(`src/unnamed/part_003` `createAndSignPayment`,
`src/typescript/packages/x402/src/schemes/exact/aptos/facilitator/utils.ts`
`deserializeAptosPayment`). The decoder here is the strict restriction of
Node's lenient decoder; the two agree on every string the encoder emits. -/

/-- Character of a 6-bit group in the standard base64 alphabet. -/
def sixtetToChar (n : Nat) : Char :=
  if n < 26 then Char.ofNat (65 + n)
  else if n < 52 then Char.ofNat (97 + (n - 26))
  else if n < 62 then Char.ofNat (48 + (n - 52))
  else if n = 62 then '+'
  else '/'

/-- Inverse of the base64 alphabet; `none` on characters outside it. -/
def charToSixtet? (c : Char) : Option Nat :=
  if 65 ≤ c.toNat ∧ c.toNat ≤ 90 then some (c.toNat - 65)
  else if 97 ≤ c.toNat ∧ c.toNat ≤ 122 then some (c.toNat - 97 + 26)
  else if 48 ≤ c.toNat ∧ c.toNat ≤ 57 then some (c.toNat - 48 + 52)
  else if c = '+' then some 62
  else if c = '/' then some 63
  else none

/-- Base64-encodes a byte list three bytes at a time, padding with `=`. -/
def base64EncodeChunks : List Nat → List Char
  | [] => []
  | [b1] =>
    [sixtetToChar (b1 / 4), sixtetToChar (b1 % 4 * 16), '=', '=']
  | [b1, b2] =>
    [sixtetToChar (b1 / 4), sixtetToChar (b1 % 4 * 16 + b2 / 16),
     sixtetToChar (b2 % 16 * 4), '=']
  | b1 :: b2 :: b3 :: rest =>
    sixtetToChar (b1 / 4) :: sixtetToChar (b1 % 4 * 16 + b2 / 16) ::
    sixtetToChar (b2 % 16 * 4 + b3 / 64) :: sixtetToChar (b3 % 64) ::
    base64EncodeChunks rest

/-- Base64-decodes four characters at a time, honouring `=` padding. -/
def base64DecodeChunks : List Char → Option (List Nat)
  | [] => some []
  | c1 :: c2 :: c3 :: c4 :: rest =>
    match charToSixtet? c1, charToSixtet? c2 with
    | some s1, some s2 =>
      if c3 = '=' then
        if c4 = '=' ∧ rest = [] then some [s1 * 4 + s2 / 16] else none
      else
        match charToSixtet? c3 with
        | some s3 =>
          if c4 = '=' then
            if rest = [] then some [s1 * 4 + s2 / 16, s2 % 16 * 16 + s3 / 4]
            else none
          else
            match charToSixtet? c4, base64DecodeChunks rest with
            | some s4, some tail =>
              some ((s1 * 4 + s2 / 16) :: (s2 % 16 * 16 + s3 / 4) ::
                    (s3 % 4 * 64 + s4) :: tail)
            | _, _ => none
        | none => none
    | _, _ => none
  | _ => none

/-! ## ASCII / UTF-8 byte conversion

The payment envelope JSON is pure ASCII, where UTF-8 is the identity on
code points: `Buffer.from(string)` maps each character to its code-point
byte and `Buffer.prototype.toString("utf8")` inverts it.  The decoder is
modelled only on ASCII byte lists (the case the codec exercises). -/

/-- Bytes of an ASCII string (UTF-8 restricted to code points below 128). -/
def asciiBytes (cs : List Char) : List Nat :=
  cs.map Char.toNat

/-- String of a list of ASCII bytes; `none` marks the model boundary for
non-ASCII input, which the codec never produces. -/
def asciiString? (bs : List Nat) : Option String :=
  if bs.all (· < 128) then some ⟨bs.map (fun b => Char.ofNat b)⟩ else none

/-! ## JSON envelope of the payload codec

`createAndSignPayment` (src/unnamed/part_003, lines 118-130) serializes
`\x7btransaction: Array.from(txBytes), senderAuthenticator: Array.from(authBytes)\x7d`
with `JSON.stringify` and base64-encodes the result.
`deserializeAptosPayment`
(src/typescript/packages/x402/src/schemes/exact/aptos/facilitator/utils.ts,
lines 14-31) base64-decodes, `JSON.parse`s and rebuilds the two byte
sequences with `Uint8Array.from`.  The parser below models `JSON.parse`
specialized to this envelope grammar (exactly the sublanguage
`JSON.stringify` emits for it). -/

/-- Comma-separated decimal renderings of the array elements followed by
the closing bracket, as `JSON.stringify` emits for a number array. -/
def printElems : List Nat → List Char
  | [] => [']']
  | [x] => natToChars x ++ [']']
  | x :: y :: t => natToChars x ++ (',' :: printElems (y :: t))

/-- JSON text of a number array, e.g. `[1,2,3]` or `[]`. -/
def jsonNumArray (xs : List Nat) : List Char :=
  '[' :: printElems xs

/-- JSON text of the payment envelope object, with `transaction` first and
`senderAuthenticator` second (JS object-literal insertion order). -/
def stringifyAptosPayload (t sa : List Nat) : List Char :=
  "\x7b\"transaction\":".data ++ jsonNumArray t ++
  ",\"senderAuthenticator\":".data ++ jsonNumArray sa ++ "\x7d".data

/-- Encodes transaction bytes and authenticator bytes into the base64
payment payload string, as `createAndSignPayment` does
(src/unnamed/part_003, lines 124-130). -/
def encodeAptosPayload (t sa : List Nat) : String :=
  ⟨base64EncodeChunks (asciiBytes (stringifyAptosPayload t sa))⟩

/-- Strips an expected literal prefix, returning the remainder. -/
def dropLit : List Char → List Char → Option (List Char)
  | [], cs => some cs
  | _ :: _, [] => none
  | l :: ls, c :: cs => if c = l then dropLit ls cs else none

/-- Parses the comma-separated elements of a nonempty JSON number array up
to and including the closing bracket.  The fuel argument only bounds the
recursion depth; one unit per element always suffices. -/
def parseElemsAux : Nat → List Char → Option (List Nat × List Char)
  | 0, _ => none
  | fuel + 1, cs =>
    match parseNat? cs with
    | none => none
    | some (n, cs1) =>
      match cs1 with
      | c :: cs2 =>
        if c = ',' then
          match parseElemsAux fuel cs2 with
          | none => none
          | some (ns, cs3) => some (n :: ns, cs3)
        else if c = ']' then some ([n], cs2)
        else none
      | [] => none

/-- Parses a JSON number array from the front of a character list. -/
def parseArr (cs : List Char) : Option (List Nat × List Char) :=
  match cs with
  | c :: cs' =>
    if c = '[' then
      match cs' with
      | c2 :: cs'' => if c2 = ']' then some ([], cs'') else parseElemsAux (cs'.length + 1) cs'
      | [] => none
    else none
  | [] => none

/-- Parses the payment envelope JSON object: models `JSON.parse` on the
envelope sublanguage, yielding the two number arrays. -/
def jsonParseEnvelope (s : String) : Option (List Nat × List Nat) :=
  match dropLit "\x7b\"transaction\":".data s.data with
  | none => none
  | some cs1 =>
    match parseArr cs1 with
    | none => none
    | some (t, cs2) =>
      match dropLit ",\"senderAuthenticator\":".data cs2 with
      | none => none
      | some cs3 =>
        match parseArr cs3 with
        | none => none
        | some (sa, cs4) =>
          if cs4 = "\x7d".data then some (t, sa) else none

/-- Byte-level half of `deserializeAptosPayment`
(src/typescript/packages/x402/src/schemes/exact/aptos/facilitator/utils.ts,
lines 18-30): base64-decode, JSON-parse, and rebuild the two byte sequences
with `Uint8Array.from` (whose element coercion is reduction mod 256),
stopping where the SDK's BCS deserializers take over. -/
def deserializeAptosPaymentBytes (s : String) : Option (List Nat × List Nat) :=
  match base64DecodeChunks s.data with
  | none => none
  | some bytes =>
    match asciiString? bytes with
    | none => none
    | some json =>
      match jsonParseEnvelope json with
      | none => none
      | some (t, sa) => some (t.map (· % 256), sa.map (· % 256))

/-! ## Aptos account addresses

Models the `@aptos-labs/ts-sdk` `AccountAddress` operations the facilitator
relies on: parsing from a hex string (`AccountAddress.from(string)`),
parsing from 32 raw bytes (`AccountAddress.from(bytes)`), and rendering
(`toString`, short form for the sixteen special addresses, and
`toStringLong`, the full 64-hex-digit lowercase form).  Addresses are
identified with their 256-bit numeric value: the SDK's `equals` compares
the underlying 32-byte arrays, i.e. exactly this value. -/

/-- Value of a hexadecimal digit character (both cases); `none` otherwise. -/
def hexVal? (c : Char) : Option Nat :=
  if 48 ≤ c.toNat ∧ c.toNat ≤ 57 then some (c.toNat - 48)
  else if 97 ≤ c.toNat ∧ c.toNat ≤ 102 then some (c.toNat - 87)
  else if 65 ≤ c.toNat ∧ c.toNat ≤ 70 then some (c.toNat - 55)
  else none

/-- Folds hex digit characters into a value; `none` on a non-hex character. -/
def hexListVal? : List Char → Nat → Option Nat
  | [], acc => some acc
  | c :: cs, acc =>
    match hexVal? c with
    | some v => hexListVal? cs (acc * 16 + v)
    | none => none

/-- Parses an account address string (`AccountAddress.from`): an optional
`0x` prefix followed by 1 to 64 hex digits, leading zeros insignificant.
`none` models the SDK throwing on a malformed address. -/
def parseAddress (s : String) : Option Nat :=
  let cs := if s.data.take 2 = ['0', 'x'] then s.data.drop 2 else s.data
  if cs.length = 0 ∨ 64 < cs.length then none else hexListVal? cs 0

/-- Address value of exactly 32 raw bytes (`AccountAddress.from(bytes)`
on an argument's BCS bytes); `none` models the SDK throwing otherwise. -/
def addrFromBytes? (bs : List Nat) : Option Nat :=
  if bs.length = 32 then some (bs.foldl (fun acc b => acc * 256 + b % 256) 0) else none

/-- Little-endian u64 read from the first eight bytes
(`new Deserializer(bytes).deserializeU64()`); `none` models the SDK
throwing when fewer than eight bytes are available. -/
def u64FromLEBytes? (bs : List Nat) : Option Nat :=
  match bs with
  | b0 :: b1 :: b2 :: b3 :: b4 :: b5 :: b6 :: b7 :: _ =>
    some (b0 % 256 + (b1 % 256) * 2 ^ 8 + (b2 % 256) * 2 ^ 16 + (b3 % 256) * 2 ^ 24 +
          (b4 % 256) * 2 ^ 32 + (b5 % 256) * 2 ^ 40 + (b6 % 256) * 2 ^ 48 + (b7 % 256) * 2 ^ 56)
  | _ => none

/-- Lowercase hexadecimal digit character. -/
def hexDigitChar (d : Nat) : Char :=
  Char.ofNat (if d < 10 then 48 + d else 87 + d)

/-- Fixed-width lowercase hex rendering, most significant digit first. -/
def hexPad : Nat → Nat → List Char
  | 0, _ => []
  | k + 1, v => hexPad k (v / 16) ++ [hexDigitChar (v % 16)]

/-- Full 64-hex-digit rendering of an address (`toStringLong`). -/
def addrToStringLong (a : Nat) : String :=
  ⟨'0' :: 'x' :: hexPad 64 a⟩

/-- Default rendering of an address (`toString`): one hex digit for the
sixteen special addresses (value below 16), the long form otherwise. -/
def addrToString (a : Nat) : String :=
  if a < 16 then ⟨['0', 'x', hexDigitChar a]⟩ else addrToStringLong a

/-! ## Facilitator data model

Types mirror `@x402/core/types` as consumed by
`ExactAptosScheme` (facilitator) in src/unnamed/part_001, lines 16-393
(the complete variant with the fee-payer safety checks, which the
repository treats as canonical).  Chain-RPC results and the SDK's BCS
transaction deserialization are explicit oracle data. -/

/-- Verification response: `\x7bisValid, invalidReason?, payer\x7d`. -/
structure VerifyResponse where
  isValid : Bool
  invalidReason : Option String
  payer : String
deriving DecidableEq

/-- Settlement response:
`\x7bsuccess, transaction, network, payer, errorReason?\x7d`. -/
structure SettleResponse where
  success : Bool
  transaction : String
  network : String
  payer : String
  errorReason : Option String
deriving DecidableEq

/-- Payment requirements fields read by the Aptos facilitator.
`extraFeePayer` is `requirements.extra?.feePayer` when that field is
present with a string value, `none` when absent or non-string; the code's
falsiness check on the empty string is kept in `verify` itself. -/
structure PaymentRequirements where
  scheme : String
  network : String
  asset : String
  payTo : String
  amount : String
  extraFeePayer : Option String
deriving DecidableEq

/-- Payment payload fields read by the Aptos facilitator:
`x402Version`, `accepted.scheme`, `accepted.network` and the base64
transaction envelope `payload.transaction`. -/
structure PaymentPayload where
  x402Version : Nat
  acceptedScheme : String
  acceptedNetwork : String
  transactionB64 : String
deriving DecidableEq

/-- Entry function extracted from a deserialized transaction payload:
module address/name, function name, the number of type arguments, and the
raw BCS bytes of each argument (`bcsToBytes()` of the deserialized args). -/
structure EntryFunctionCall where
  moduleAddress : Nat
  moduleName : String
  functionName : String
  typeArgsCount : Nat
  args : List (List Nat)
deriving DecidableEq

/-- Result of `deserializeAptosPayment` as consumed by `verify`/`settle`:
sender address value, expiration timestamp, optional fee payer address,
and the entry function when the payload is an entry-function payload. -/
structure DecodedPayment where
  sender : Nat
  expirationTimestampSecs : Nat
  feePayerAddress : Option Nat
  entryFunction : Option EntryFunctionCall
deriving DecidableEq

/-- Simulation outcome returned by the chain
(`aptos.transaction.simulate.simple`). -/
structure SimResult where
  success : Bool
  vm_status : String
deriving DecidableEq

/-- Chain-RPC oracle for one verification run: the balance query outcome
(`Except.error` models the query throwing, `Except.ok n` the computed
`BigInt(balance[0]?.amount ?? 0)` value), the current Unix time
(`Math.floor(Date.now() / 1000)`), and the simulation outcome
(`Except.error msg` models `simulate` throwing with message `msg`). -/
structure ChainEnv where
  balanceQuery : Except Unit Nat
  now : Nat
  simulation : Except String SimResult

/-- Constructs the invalid verification response the code returns from a
failing check. -/
def invalidResp (reason payer : String) : VerifyResponse :=
  ⟨false, some reason, payer⟩

/-- Response produced by the outer catch-all of `verify`
(src/unnamed/part_001, lines 310-317) when any validation step throws. -/
def unexpectedResp : VerifyResponse :=
  invalidResp "invalid_exact_aptos_payload_unexpected_error" ""

/-- Step 9 of `verify` (src/unnamed/part_001, lines 270-309): simulate the
transaction; a thrown simulation surfaces as `simulation_error`, an
unsuccessful one as `simulation_failed` with the VM status; success ends
verification with `isValid = true`. -/
def simulationStep (env : ChainEnv) (payer : String) : VerifyResponse :=
  match env.simulation with
  | .error msg =>
    invalidResp ("invalid_exact_aptos_payload_simulation_error: " ++ msg) payer
  | .ok res =>
    if res.success then ⟨true, none, payer⟩
    else invalidResp ("invalid_exact_aptos_payload_simulation_failed: " ++ res.vm_status) payer

/-- Step 8 of `verify` (src/unnamed/part_001, lines 257-268): reject when
the expiration timestamp is below now plus the 30-second buffer. -/
def expirationStep (env : ChainEnv) (expirationTimestampSecs : Nat) (payer : String) :
    VerifyResponse :=
  if expirationTimestampSecs < env.now + 30 then
    invalidResp "invalid_exact_aptos_payload_transaction_expired" payer
  else simulationStep env payer

/-- Step 7 of `verify` (src/unnamed/part_001, lines 232-255): best-effort
balance pre-check.  A thrown query (or a required amount `BigInt` cannot
parse) is swallowed by the surrounding `try`/`catch` and verification
continues; an insufficient fetched balance rejects. -/
def balanceStep (env : ChainEnv) (requiredAmountStr : String)
    (expirationTimestampSecs : Nat) (payer : String) : VerifyResponse :=
  match env.balanceQuery with
  | .error _ => expirationStep env expirationTimestampSecs payer
  | .ok currentBalance =>
    match natOfDigits? requiredAmountStr with
    | none => expirationStep env expirationTimestampSecs payer
    | some requiredAmount =>
      if currentBalance < requiredAmount then
        invalidResp "invalid_exact_aptos_payload_insufficient_balance" payer
      else expirationStep env expirationTimestampSecs payer

/-- Steps 4-7 of `verify` (src/unnamed/part_001, lines 152-255): transfer
function whitelist, type-argument arity, argument arity, then asset,
recipient and amount equality on canonically decoded addresses and the
canonical decimal of the transferred u64 against the raw requirements
string, followed by the balance pre-check.  A `none` from an argument
decoder or address parser models the SDK throwing, routed to the outer
catch-all. -/
def argsSteps (env : ChainEnv) (r : PaymentRequirements) (d : DecodedPayment)
    (ef : EntryFunctionCall) (payer : String) : VerifyResponse :=
  if ¬((ef.moduleAddress = 1 ∧ ef.moduleName = "primary_fungible_store" ∧
        ef.functionName = "transfer") ∨
       (ef.moduleAddress = 1 ∧ ef.moduleName = "fungible_asset" ∧
        ef.functionName = "transfer")) then
    invalidResp "invalid_exact_aptos_payload_wrong_function" payer
  else if ef.typeArgsCount ≠ 1 then
    invalidResp "invalid_exact_aptos_payload_wrong_type_args" payer
  else
    match ef.args with
    | [faAddressArg, recipientAddressArg, amountArg] =>
      match addrFromBytes? faAddressArg with
      | none => unexpectedResp
      | some faAddress =>
        match parseAddress r.asset with
        | none => unexpectedResp
        | some expectedAsset =>
          if faAddress ≠ expectedAsset then
            invalidResp "invalid_exact_aptos_payload_asset_mismatch" payer
          else
            match addrFromBytes? recipientAddressArg with
            | none => unexpectedResp
            | some recipientAddress =>
              match parseAddress r.payTo with
              | none => unexpectedResp
              | some expectedPayTo =>
                if recipientAddress ≠ expectedPayTo then
                  invalidResp "invalid_exact_aptos_payload_recipient_mismatch" payer
                else
                  match u64FromLEBytes? amountArg with
                  | none => unexpectedResp
                  | some amount =>
                    if natToString amount ≠ r.amount then
                      invalidResp "invalid_exact_aptos_payload_amount_mismatch" payer
                    else balanceStep env r.amount d.expirationTimestampSecs payer
    | _ => invalidResp "invalid_exact_aptos_payload_wrong_args" payer

/-- The facilitator's `verify` (src/unnamed/part_001, lines 63-318),
parameterized by the configured signer addresses
(`this.signer.getAddresses()`), the BCS deserialization oracle `deser`
(`deserializeAptosPayment`; `Except.error` models it throwing) and the
chain-RPC oracle `env`.  Checks run in source order: x402 version, scheme,
network, fee payer presence (JS falsiness rejects the empty string) and
facilitator management, deserialization, transaction fee-payer equality,
the sender-is-not-a-facilitator-signer security check, entry-function
presence, then `argsSteps`. -/
def verify (signers : List String) (deser : String → Except Unit DecodedPayment)
    (env : ChainEnv) (p : PaymentPayload) (r : PaymentRequirements) : VerifyResponse :=
  if p.x402Version ≠ 2 then
    invalidResp "invalid_exact_aptos_payload_unsupported_version" ""
  else if p.acceptedScheme ≠ "exact" ∨ r.scheme ≠ "exact" then
    invalidResp "unsupported_scheme" ""
  else if p.acceptedNetwork ≠ r.network then
    invalidResp "network_mismatch" ""
  else
    match r.extraFeePayer with
    | none => invalidResp "invalid_exact_aptos_payload_missing_fee_payer" ""
    | some feePayer =>
      if feePayer = "" then
        invalidResp "invalid_exact_aptos_payload_missing_fee_payer" ""
      else if feePayer ∉ signers then
        invalidResp "fee_payer_not_managed_by_facilitator" ""
      else
        match deser p.transactionB64 with
        | .error _ => unexpectedResp
        | .ok d =>
          match parseAddress feePayer with
          | none => unexpectedResp
          | some expectedFeePayer =>
            match d.feePayerAddress with
            | none =>
              invalidResp "invalid_exact_aptos_payload_fee_payer_mismatch" (addrToString d.sender)
            | some txFeePayer =>
              if expectedFeePayer ≠ txFeePayer then
                invalidResp "invalid_exact_aptos_payload_fee_payer_mismatch"
                  (addrToString d.sender)
              else if addrToString d.sender ∈ signers then
                invalidResp "invalid_exact_aptos_payload_fee_payer_transferring_funds"
                  (addrToString d.sender)
              else
                match d.entryFunction with
                | none =>
                  invalidResp "invalid_exact_aptos_payload_missing_entry_function"
                    (addrToString d.sender)
                | some ef => argsSteps env r d ef (addrToString d.sender)

deriving instance DecidableEq for Except

/-- Chain-submission primitives `settle` can invoke on the facilitator
signer, recorded for the no-submission-without-verification property. -/
inductive ChainAction where
  | signAndSubmitAsFeePayer
  | submitTransaction
  | waitForTransaction
deriving DecidableEq

/-- Oracle data for one settlement run: the environment the internal
re-verification sees, the outcomes of the two submission paths
(`Except.ok hash` or a throw) and of waiting for confirmation. -/
structure SettleEnv where
  verifyEnv : ChainEnv
  sponsoredSubmit : Except Unit String
  plainSubmit : Except Unit String
  waitResult : Except Unit Unit

/-- The facilitator's `settle` (src/unnamed/part_001, lines 327-392),
returning the response together with the chain actions performed.  It
first re-runs `verify`; on failure it returns the fresh reason with no
chain action.  Otherwise it re-deserializes, chooses the sponsored path
when `requirements.extra?.feePayer` is a string, submits, waits, and maps
any throw in that `try` block to the fixed `transaction_failed` response
(whose payer is `valid.payer || ""`, i.e. exactly `valid.payer`). -/
def settle (signers : List String) (deser : String → Except Unit DecodedPayment)
    (env : SettleEnv) (p : PaymentPayload) (r : PaymentRequirements) :
    SettleResponse × List ChainAction :=
  let valid := verify signers deser env.verifyEnv p r
  if valid.isValid then
    match deser p.transactionB64 with
    | .error _ =>
      (⟨false, "", p.acceptedNetwork, valid.payer, some "transaction_failed"⟩, [])
    | .ok d =>
      let isSponsored := r.extraFeePayer.isSome
      let submitResult := if isSponsored then env.sponsoredSubmit else env.plainSubmit
      let submitAction :=
        if isSponsored then ChainAction.signAndSubmitAsFeePayer
        else ChainAction.submitTransaction
      match submitResult with
      | .error _ =>
        (⟨false, "", p.acceptedNetwork, valid.payer, some "transaction_failed"⟩, [submitAction])
      | .ok hash =>
        match env.waitResult with
        | .error _ =>
          (⟨false, "", p.acceptedNetwork, valid.payer, some "transaction_failed"⟩,
           [submitAction, ChainAction.waitForTransaction])
        | .ok _ =>
          (⟨true, hash, p.acceptedNetwork, addrToStringLong d.sender, none⟩,
           [submitAction, ChainAction.waitForTransaction])
  else
    (⟨false, "", p.acceptedNetwork, valid.payer,
      some (valid.invalidReason.getD "verification_failed")⟩, [])

/-! ## Money / price resolution

Models the server-side `ExactAptosScheme` money parsing
(src/unnamed/part_002): the registered custom money-parser chain of
`parsePrice` (lines 56-87) and the default USDC conversion
(`defaultMoneyConversion`, lines 160-173, and `convertToTokenAmount`,
lines 182-187).  A parser chain run is represented by the list of results
the registered parsers return, in registration order (`none` = the parser
declined). -/

/-- Resolved concrete asset and atomic amount. -/
structure AssetAmount where
  amount : String
  asset : String
deriving DecidableEq

/-- Default USDC fungible asset metadata address on mainnet
(src/unnamed/part_002, line 16). -/
def USDC_MAINNET_FA : String :=
  "0xbae207659db88bea0cbead6da0ed00aac12edcdda169e591cd41c94180b46f3b"

/-- Default USDC fungible asset metadata address on testnet
(src/unnamed/part_002, line 21). -/
def USDC_TESTNET_FA : String :=
  "0x69091fbab5f7d635ee7ac5098cf0c1efbe31d68fec0f2cd565e8d168daf52832"

/-- Splits a character list at every dot, as JS `String.prototype.split(".")`. -/
def splitOnDot : List Char → List (List Char)
  | [] => [[]]
  | c :: cs =>
    if c = '.' then [] :: splitOnDot cs
    else
      match splitOnDot cs with
      | [] => [[c]]
      | p :: ps => (c :: p) :: ps

/-- JS `String.prototype.padEnd` on character lists. -/
def padEndChars (cs : List Char) (n : Nat) (c : Char) : List Char :=
  cs ++ List.replicate (n - cs.length) c

/-- `convertToTokenAmount` (src/unnamed/part_002, lines 182-187): split the
decimal string at the dot, take the whole part (or `"0"`), pad/truncate the
fractional part to `decimals` digits, concatenate and convert via `BigInt`
(rendered back in canonical decimal).  `none` models `BigInt` throwing on a
string that is not a plain nonnegative decimal. -/
def convertToTokenAmount (amount : String) (decimals : Nat) : Option String :=
  let parts := splitOnDot amount.data
  let wholePart := match parts.headD [] with | [] => ['0'] | w => w
  let fractionalPart := (padEndChars ((parts[1]?).getD []) decimals '0').take decimals
  (natOfDigits? ⟨wholePart ++ fractionalPart⟩).map natToString

/-- `defaultMoneyConversion` (src/unnamed/part_002, lines 160-173): convert
the decimal amount string (the caller's rendering of the parsed decimal) to
USDC atomic units at 6 decimals, choosing the USDC address by network. -/
def defaultMoneyConversion (amountStr : String) (network : String) : Option AssetAmount :=
  match convertToTokenAmount amountStr 6 with
  | none => none
  | some tokenAmount =>
    some ⟨tokenAmount, if network = "aptos:2" then USDC_TESTNET_FA else USDC_MAINNET_FA⟩

/-- First non-declining result of the registered parser chain, in
registration order (the `for` loop of `parsePrice`, lines 78-83). -/
def firstSome : List (Option AssetAmount) → Option AssetAmount
  | [] => none
  | some r :: _ => some r
  | none :: rest => firstSome rest

/-- The decimal-money branch of `parsePrice` (src/unnamed/part_002,
lines 72-87): run the registered custom parsers in registration order on
the decimal amount, take the first non-null result, and fall back to the
default USDC conversion when every parser declines.  `parserResults` lists
each registered parser's result on this amount and network. -/
def parsePriceMoney (parserResults : List (Option AssetAmount)) (amountStr : String)
    (network : String) : Option AssetAmount :=
  match firstSome parserResults with
  | some result => some result
  | none => defaultMoneyConversion amountStr network

/-! ## Concrete example data

Shared concrete instances used by witnesses and counterexamples. -/

/-- Example facilitator signer address string (long form of `0xaa`). -/
def exFeePayerStr : String := addrToStringLong 170

/-- Example facilitator signer set. -/
def exSigners : List String := [exFeePayerStr]

/-- Example transfer entry function moving 100 units of asset `0x07` to
recipient `0x09` via `0x1::primary_fungible_store::transfer`. -/
def exEntryFunction : EntryFunctionCall :=
  { moduleAddress := 1
    moduleName := "primary_fungible_store"
    functionName := "transfer"
    typeArgsCount := 1
    args := [List.replicate 31 0 ++ [7], List.replicate 31 0 ++ [9],
             [100, 0, 0, 0, 0, 0, 0, 0]] }

/-- Example decoded sponsored transaction from sender `0xbb` with fee payer
`0xaa`, expiring at time 100. -/
def exDecoded : DecodedPayment :=
  { sender := 187
    expirationTimestampSecs := 100
    feePayerAddress := some 170
    entryFunction := some exEntryFunction }

/-- Example decoded transaction whose sender is the facilitator signer
`0xaa` itself. -/
def exDecodedSelf : DecodedPayment :=
  { exDecoded with sender := 170 }

/-- Deserialization oracle producing `exDecoded`. -/
def exDeser : String → Except Unit DecodedPayment := fun _ => .ok exDecoded

/-- Deserialization oracle producing `exDecodedSelf`. -/
def exDeserSelf : String → Except Unit DecodedPayment := fun _ => .ok exDecodedSelf

/-- Example payment payload matching `exReqs`. -/
def exPayload : PaymentPayload :=
  { x402Version := 2
    acceptedScheme := "exact"
    acceptedNetwork := "aptos:1"
    transactionB64 := "tx" }

/-- Example payment requirements matching `exDecoded`'s transfer. -/
def exReqs : PaymentRequirements :=
  { scheme := "exact"
    network := "aptos:1"
    asset := addrToStringLong 7
    payTo := addrToStringLong 9
    amount := "100"
    extraFeePayer := some exFeePayerStr }

/-- Requirements identical to `exReqs` except the amount is spelled with a
leading zero (`"0100"`), denoting the same number 100. -/
def exReqsPadded : PaymentRequirements :=
  { exReqs with amount := "0100" }

/-- Requirements identical to `exReqs` except the asset is `0x08` instead
of the transferred `0x07`. -/
def exReqsWrongAsset : PaymentRequirements :=
  { exReqs with asset := addrToStringLong 8 }

/-- Chain environment whose balance query reports 5 (below the required
100) at time 1000, with a succeeding simulation. -/
def exEnvLowBalance : ChainEnv :=
  { balanceQuery := .ok 5, now := 1000, simulation := .ok ⟨true, ""⟩ }

/-- Chain environment with ample balance at time 1000 (past `exDecoded`'s
expiration), with a succeeding simulation. -/
def exEnvExpired : ChainEnv :=
  { balanceQuery := .ok 1000000, now := 1000, simulation := .ok ⟨true, ""⟩ }

/-- Chain environment whose balance query throws, at time 10, with a
succeeding simulation. -/
def exEnvBalanceThrow : ChainEnv :=
  { balanceQuery := .error (), now := 10, simulation := .ok ⟨true, ""⟩ }

/-- Chain environment with ample balance at time 10, with a succeeding
simulation. -/
def exEnvFine : ChainEnv :=
  { balanceQuery := .ok 1000000, now := 10, simulation := .ok ⟨true, ""⟩ }

/-- Settlement environment around `exEnvFine` whose submission paths throw. -/
def exSettleEnvThrow : SettleEnv :=
  { verifyEnv := exEnvFine
    sponsoredSubmit := .error ()
    plainSubmit := .error ()
    waitResult := .ok () }

/-- Settlement environment around `exEnvLowBalance` (verification fails). -/
def exSettleEnvLowBalance : SettleEnv :=
  { verifyEnv := exEnvLowBalance
    sponsoredSubmit := .ok "0xhash"
    plainSubmit := .ok "0xhash"
    waitResult := .ok () }

/-- Conjunction of the checks of `verify` that precede the entry-function
argument validation: with these, control reaches `argsSteps` with decoded
payment `d`, entry function `ef`, fee payer string `fp` of address value
`fpv`, and payer string `addrToString d.sender`. -/
def reachesArgsChecks (signers : List String) (deser : String → Except Unit DecodedPayment)
    (p : PaymentPayload) (r : PaymentRequirements) (fp : String) (d : DecodedPayment)
    (ef : EntryFunctionCall) (fpv : Nat) : Prop :=
  p.x402Version = 2 ∧ p.acceptedScheme = "exact" ∧ r.scheme = "exact" ∧
  p.acceptedNetwork = r.network ∧ r.extraFeePayer = some fp ∧ fp ≠ "" ∧ fp ∈ signers ∧
  deser p.transactionB64 = .ok d ∧ parseAddress fp = some fpv ∧
  d.feePayerAddress = some fpv ∧ addrToString d.sender ∉ signers ∧
  d.entryFunction = some ef

end X402Aptos

namespace X402Aptos

theorem charToSixtet?_sixtetToChar (n : Nat) (h : n < 64) :
    charToSixtet? (sixtetToChar n) = some n := by
  revert n; decide

theorem sixtetToChar_ne_pad (n : Nat) (h : n < 64) : sixtetToChar n ≠ '=' := by
  revert n; decide

/-- Base64 round trip at the chunk level: decoding the encoding of any byte
list returns it unchanged. -/
theorem base64DecodeChunks_encodeChunks (bs : List Nat) (h : ∀ b ∈ bs, b < 256) :
    base64DecodeChunks (base64EncodeChunks bs) = some bs := by
  induction bs using base64EncodeChunks.induct with
  | case1 => simp [base64EncodeChunks, base64DecodeChunks]
  | case2 b1 =>
    have hb1 : b1 < 256 := h b1 (by simp)
    have e1 := charToSixtet?_sixtetToChar (b1 / 4) (by omega)
    have e2 := charToSixtet?_sixtetToChar (b1 % 4 * 16) (by omega)
    simp [base64EncodeChunks, base64DecodeChunks, e1, e2]
    omega
  | case3 b1 b2 =>
    have hb1 : b1 < 256 := h b1 (by simp)
    have hb2 : b2 < 256 := h b2 (by simp)
    have e1 := charToSixtet?_sixtetToChar (b1 / 4) (by omega)
    have e2 := charToSixtet?_sixtetToChar (b1 % 4 * 16 + b2 / 16) (by omega)
    have e3 := charToSixtet?_sixtetToChar (b2 % 16 * 4) (by omega)
    have n3 := sixtetToChar_ne_pad (b2 % 16 * 4) (by omega)
    simp [base64EncodeChunks, base64DecodeChunks, e1, e2, e3, n3]
    omega
  | case4 b1 b2 b3 rest ih =>
    have hb1 : b1 < 256 := h b1 (by simp)
    have hb2 : b2 < 256 := h b2 (by simp)
    have hb3 : b3 < 256 := h b3 (by simp)
    have e1 := charToSixtet?_sixtetToChar (b1 / 4) (by omega)
    have e2 := charToSixtet?_sixtetToChar (b1 % 4 * 16 + b2 / 16) (by omega)
    have e3 := charToSixtet?_sixtetToChar (b2 % 16 * 4 + b3 / 64) (by omega)
    have e4 := charToSixtet?_sixtetToChar (b3 % 64) (by omega)
    have n3 := sixtetToChar_ne_pad (b2 % 16 * 4 + b3 / 64) (by omega)
    have n4 := sixtetToChar_ne_pad (b3 % 64) (by omega)
    have ih' := ih (fun b hb => h b (by simp [hb]))
    simp [base64EncodeChunks, base64DecodeChunks, e1, e2, e3, e4, n3, n4, ih']
    omega

theorem digitChar_toNat (d : Nat) (h : d < 10) : (digitChar d).toNat = 48 + d := by
  revert d; decide

theorem isDigitChar_digitChar (d : Nat) (h : d < 10) : isDigitChar (digitChar d) = true := by
  revert d; decide

theorem isDigitChar_toNat_lt128 (c : Char) (h : isDigitChar c = true) : c.toNat < 128 := by
  simp [isDigitChar] at h
  omega

theorem natToCharsAux_fuel (n : Nat) : ∀ f1 f2 : Nat, n < f1 → n < f2 →
    natToCharsAux f1 n = natToCharsAux f2 n := by
  induction n using Nat.strong_induction_on with
  | _ n ih =>
    intro f1 f2 h1 h2
    cases f1 with
    | zero => omega
    | succ g1 =>
      cases f2 with
      | zero => omega
      | succ g2 =>
        simp only [natToCharsAux]
        by_cases hn : n < 10
        · simp [hn]
        · rw [if_neg hn, if_neg hn]
          congr 1
          exact ih (n / 10) (by omega) g1 g2 (by omega) (by omega)

theorem natToChars_eq (n : Nat) :
    natToChars n =
      if n < 10 then [digitChar n] else natToChars (n / 10) ++ [digitChar (n % 10)] := by
  unfold natToChars
  simp only [natToCharsAux]
  by_cases hn : n < 10
  · simp [hn]
  · rw [if_neg hn, if_neg hn]
    congr 1
    exact natToCharsAux_fuel (n / 10) n (n / 10 + 1) (by omega) (by omega)

theorem natToChars_ne_nil (n : Nat) : natToChars n ≠ [] := by
  rw [natToChars_eq]
  split
  · simp
  · simp

theorem natToChars_all_digits (n : Nat) : ∀ c ∈ natToChars n, isDigitChar c = true := by
  induction n using Nat.strong_induction_on with
  | _ n ih =>
    intro c hc
    rw [natToChars_eq] at hc
    by_cases hn : n < 10
    · rw [if_pos hn] at hc
      simp at hc
      subst hc
      exact isDigitChar_digitChar n hn
    · rw [if_neg hn] at hc
      rcases List.mem_append.mp hc with h1 | h2
      · exact ih (n / 10) (by omega) c h1
      · simp at h2
        subst h2
        exact isDigitChar_digitChar (n % 10) (by omega)

theorem foldl_natToChars (n : Nat) : ∀ acc : Nat,
    (natToChars n).foldl (fun a c => a * 10 + (c.toNat - 48)) acc =
      acc * 10 ^ (natToChars n).length + n := by
  induction n using Nat.strong_induction_on with
  | _ n ih =>
    intro acc
    by_cases hn : n < 10
    · rw [natToChars_eq, if_pos hn]
      simp [digitChar_toNat n hn]
    · rw [natToChars_eq, if_neg hn]
      rw [List.foldl_append, ih (n / 10) (by omega) acc]
      rw [List.foldl_cons, List.foldl_nil]
      rw [digitChar_toNat (n % 10) (by omega)]
      rw [List.length_append, List.length_cons, List.length_nil, Nat.zero_add, pow_succ]
      have h1 : 48 + n % 10 - 48 = n % 10 := by omega
      rw [h1]
      have hdm : n / 10 * 10 + n % 10 = n := by omega
      calc (acc * 10 ^ (natToChars (n / 10)).length + n / 10) * 10 + n % 10
          = acc * (10 ^ (natToChars (n / 10)).length * 10) + (n / 10 * 10 + n % 10) := by ring
        _ = acc * (10 ^ (natToChars (n / 10)).length * 10) + n := by rw [hdm]

theorem digitsVal_natToChars (n : Nat) : digitsVal (natToChars n) = n := by
  have h := foldl_natToChars n 0
  simpa [digitsVal] using h

theorem natOfDigits?_natToString (n : Nat) : natOfDigits? (natToString n) = some n := by
  unfold natOfDigits? natToString
  rw [if_pos]
  · exact congrArg some (digitsVal_natToChars n)
  · exact ⟨natToChars_ne_nil n, List.all_eq_true.mpr (natToChars_all_digits n)⟩

theorem parseDigits_append (ds : List Char) : ∀ (acc : Nat) (rest : List Char),
    (∀ c ∈ ds, isDigitChar c = true) → leadsNonDigit rest = true →
    parseDigits (ds ++ rest) acc =
      (ds.foldl (fun a c => a * 10 + (c.toNat - 48)) acc, rest) := by
  induction ds with
  | nil =>
    intro acc rest _ hrest
    cases rest with
    | nil => simp [parseDigits]
    | cons c t =>
      simp [leadsNonDigit] at hrest
      simp [parseDigits, hrest]
  | cons d ds ih =>
    intro acc rest hds hrest
    have hd : isDigitChar d = true := hds d (by simp)
    rw [List.cons_append, parseDigits, if_pos hd, List.foldl_cons]
    exact ih (acc * 10 + (d.toNat - 48)) rest (fun c hc => hds c (by simp [hc])) hrest

theorem parseNat?_natToChars (n : Nat) (rest : List Char)
    (hrest : leadsNonDigit rest = true) :
    parseNat? (natToChars n ++ rest) = some (n, rest) := by
  cases hnc : natToChars n with
  | nil => exact absurd hnc (natToChars_ne_nil n)
  | cons d ds =>
    have hd : isDigitChar d = true := natToChars_all_digits n d (by rw [hnc]; simp)
    have hds : ∀ c ∈ ds, isDigitChar c = true :=
      fun c hc => natToChars_all_digits n c (by rw [hnc]; simp [hc])
    simp only [List.cons_append, parseNat?, hd, if_pos]
    rw [parseDigits_append ds (d.toNat - 48) rest hds hrest]
    have hv : ds.foldl (fun a c => a * 10 + (c.toNat - 48)) (d.toNat - 48) = n := by
      have h0 : digitsVal (d :: ds) = n := by rw [← hnc]; exact digitsVal_natToChars n
      simpa [digitsVal, List.foldl] using h0
    rw [hv]

theorem dropLit_append (lit rest : List Char) : dropLit lit (lit ++ rest) = some rest := by
  induction lit with
  | nil => simp [dropLit]
  | cons l ls ih => simp [dropLit, ih]

theorem printElems_ascii (xs : List Nat) : ∀ c ∈ printElems xs, c.toNat < 128 := by
  induction xs using printElems.induct with
  | case1 =>
    intro c hc
    simp [printElems] at hc
    subst hc
    decide
  | case2 x =>
    intro c hc
    simp only [printElems] at hc
    rcases List.mem_append.mp hc with h1 | h2
    · exact isDigitChar_toNat_lt128 c (natToChars_all_digits x c h1)
    · simp at h2
      subst h2
      decide
  | case3 x y t ih =>
    intro c hc
    simp only [printElems] at hc
    rcases List.mem_append.mp hc with h1 | h2
    · exact isDigitChar_toNat_lt128 c (natToChars_all_digits x c h1)
    · rcases List.mem_cons.mp h2 with h3 | h4
      · subst h3; decide
      · exact ih c h4

theorem printElems_length (xs : List Nat) : xs.length ≤ (printElems xs).length := by
  induction xs using printElems.induct with
  | case1 => simp [printElems]
  | case2 x =>
    have h := List.length_pos.mpr (natToChars_ne_nil x)
    simp only [printElems, List.length_append, List.length_cons, List.length_nil]
    omega
  | case3 x y t ih =>
    have h := List.length_pos.mpr (natToChars_ne_nil x)
    simp only [printElems, List.length_append, List.length_cons, List.length_nil] at ih ⊢
    omega

theorem printElems_cons_head (x : Nat) (t : List Nat) :
    ∃ d tail, printElems (x :: t) = d :: tail ∧ isDigitChar d = true := by
  cases hnc : natToChars x with
  | nil => exact absurd hnc (natToChars_ne_nil x)
  | cons d ds =>
    have hd : isDigitChar d = true := natToChars_all_digits x d (by rw [hnc]; simp)
    cases t with
    | nil => exact ⟨d, ds ++ [']'], by simp [printElems, hnc], hd⟩
    | cons y t' => exact ⟨d, ds ++ (',' :: printElems (y :: t')), by simp [printElems, hnc], hd⟩

theorem parseElemsAux_printElems (xs : List Nat) : ∀ (fuel : Nat) (rest : List Char),
    xs ≠ [] → xs.length ≤ fuel →
    parseElemsAux fuel (printElems xs ++ rest) = some (xs, rest) := by
  induction xs using printElems.induct with
  | case1 => intro fuel rest hne _; exact absurd rfl hne
  | case2 x =>
    intro fuel rest _ hfuel
    cases fuel with
    | zero => simp at hfuel
    | succ f =>
      have hp := parseNat?_natToChars x (']' :: rest) rfl
      simp only [printElems, List.append_assoc, List.cons_append, List.nil_append]
      simp only [parseElemsAux, hp]
      simp
  | case3 x y t ih =>
    intro fuel rest _ hfuel
    cases fuel with
    | zero => simp at hfuel
    | succ f =>
      have hp := parseNat?_natToChars x (',' :: (printElems (y :: t) ++ rest)) rfl
      have hrec := ih f rest (by simp) (by simp at hfuel ⊢; omega)
      simp only [printElems, List.append_assoc, List.cons_append]
      simp only [parseElemsAux, hp, hrec]
      simp

theorem parseArr_jsonNumArray (xs : List Nat) (rest : List Char) :
    parseArr (jsonNumArray xs ++ rest) = some (xs, rest) := by
  cases xs with
  | nil => simp [jsonNumArray, printElems, parseArr]
  | cons x t =>
    obtain ⟨d, tail, hsplit, hd⟩ := printElems_cons_head x t
    have hdne : d ≠ ']' := by
      intro hcon
      rw [hcon] at hd
      exact absurd hd (by decide)
    have hform : printElems (x :: t) ++ rest = d :: (tail ++ rest) := by
      rw [hsplit]; simp
    have hlen : (x :: t).length ≤ (d :: (tail ++ rest)).length + 1 := by
      have h1 := printElems_length (x :: t)
      have h2 : (printElems (x :: t) ++ rest).length = (d :: (tail ++ rest)).length := by
        rw [hform]
      simp at h1 h2 ⊢
      omega
    have hrec := parseElemsAux_printElems (x :: t) ((d :: (tail ++ rest)).length + 1) rest
      (by simp) hlen
    rw [hform] at hrec
    simp only [jsonNumArray, List.cons_append]
    rw [show ('[' :: (printElems (x :: t) ++ rest)) = '[' :: (d :: (tail ++ rest)) by rw [hform]]
    simp only [parseArr, if_pos rfl]
    rw [if_neg hdne]
    simpa using hrec

theorem map_ofNat_toNat (cs : List Char) :
    (cs.map Char.toNat).map (fun b => Char.ofNat b) = cs := by
  induction cs with
  | nil => simp
  | cons a t ih => simp [ih, Char.ofNat_toNat]

theorem asciiString?_asciiBytes (cs : List Char) (h : ∀ c ∈ cs, c.toNat < 128) :
    asciiString? (asciiBytes cs) = some ⟨cs⟩ := by
  unfold asciiString? asciiBytes
  rw [if_pos]
  · rw [map_ofNat_toNat]
  · simp only [List.all_eq_true, List.mem_map]
    rintro b ⟨c, hc, rfl⟩
    simpa using h c hc

theorem stringifyAptosPayload_ascii (t sa : List Nat) :
    ∀ c ∈ stringifyAptosPayload t sa, c.toNat < 128 := by
  have l1 : ∀ c ∈ ("\x7b\"transaction\":").data, c.toNat < 128 := by decide
  have l2 : ∀ c ∈ (",\"senderAuthenticator\":").data, c.toNat < 128 := by decide
  have l3 : ∀ c ∈ ("\x7d").data, c.toNat < 128 := by decide
  intro c hc
  unfold stringifyAptosPayload jsonNumArray at hc
  rcases List.mem_append.mp hc with h4 | h5
  · rcases List.mem_append.mp h4 with h3 | h3b
    · rcases List.mem_append.mp h3 with h2 | h2b
      · rcases List.mem_append.mp h2 with h1 | h1b
        · exact l1 c h1
        · rcases List.mem_cons.mp h1b with rfl | hmem
          · decide
          · exact printElems_ascii t c hmem
      · exact l2 c h2b
    · rcases List.mem_cons.mp h3b with rfl | hmem
      · decide
      · exact printElems_ascii sa c hmem
  · exact l3 c h5

theorem jsonParseEnvelope_stringify (t sa : List Nat) :
    jsonParseEnvelope ⟨stringifyAptosPayload t sa⟩ = some (t, sa) := by
  unfold jsonParseEnvelope stringifyAptosPayload
  simp only [List.append_assoc, dropLit_append, parseArr_jsonNumArray]
  simp

theorem map_mod256_eq_self (l : List Nat) (h : ∀ x ∈ l, x < 256) :
    l.map (· % 256) = l := by
  induction l with
  | nil => simp
  | cons a t ih =>
    simp only [List.map_cons]
    rw [Nat.mod_eq_of_lt (h a (by simp)), ih (fun x hx => h x (by simp [hx]))]

theorem verify_reaches_args (signers : List String)
    (deser : String → Except Unit DecodedPayment) (env : ChainEnv)
    (p : PaymentPayload) (r : PaymentRequirements) (fp : String) (d : DecodedPayment)
    (ef : EntryFunctionCall) (fpv : Nat)
    (h : reachesArgsChecks signers deser p r fp d ef fpv) :
    verify signers deser env p r = argsSteps env r d ef (addrToString d.sender) := by
  obtain ⟨h1, h2, h3, h4, h5, h6, h7, h8, h9, h10, h11, h12⟩ := h
  simp [verify, h1, h2, h3, h4, h5, h6, h7, h8, h9, h10, h11, h12]

theorem structured_simulationStep (env : ChainEnv) (payer : String) :
    (simulationStep env payer).isValid = true ∨
      ((simulationStep env payer).invalidReason).isSome = true := by
  unfold simulationStep
  repeat' split
  all_goals first
    | (left; rfl)
    | (right; rfl)

theorem structured_expirationStep (env : ChainEnv) (e : Nat) (payer : String) :
    (expirationStep env e payer).isValid = true ∨
      ((expirationStep env e payer).invalidReason).isSome = true := by
  unfold expirationStep
  split
  · right; rfl
  · exact structured_simulationStep env payer

theorem structured_balanceStep (env : ChainEnv) (s : String) (e : Nat) (payer : String) :
    (balanceStep env s e payer).isValid = true ∨
      ((balanceStep env s e payer).invalidReason).isSome = true := by
  unfold balanceStep
  repeat' split
  all_goals first
    | exact structured_expirationStep env e payer
    | (right; rfl)

theorem structured_argsSteps (env : ChainEnv) (r : PaymentRequirements) (d : DecodedPayment)
    (ef : EntryFunctionCall) (payer : String) :
    (argsSteps env r d ef payer).isValid = true ∨
      ((argsSteps env r d ef payer).invalidReason).isSome = true := by
  unfold argsSteps
  repeat' split
  all_goals first
    | exact structured_balanceStep env r.amount d.expirationTimestampSecs payer
    | (right; rfl)

theorem structured_verify (signers : List String)
    (deser : String → Except Unit DecodedPayment) (env : ChainEnv)
    (p : PaymentPayload) (r : PaymentRequirements) :
    (verify signers deser env p r).isValid = true ∨
      ((verify signers deser env p r).invalidReason).isSome = true := by
  unfold verify
  repeat' split
  all_goals first
    | exact structured_argsSteps _ _ _ _ _
    | (right; rfl)

theorem verify_inv (signers : List String) (deser : String → Except Unit DecodedPayment)
    (env : ChainEnv) (p : PaymentPayload) (r : PaymentRequirements)
    (h : (verify signers deser env p r).isValid = false) :
    ((verify signers deser env p r).invalidReason).isSome = true := by
  rcases structured_verify signers deser env p r with hv | hs
  · rw [h] at hv
    exact absurd hv (by simp)
  · exact hs

theorem verify_valid_deser_ok (signers : List String)
    (deser : String → Except Unit DecodedPayment) (env : ChainEnv)
    (p : PaymentPayload) (r : PaymentRequirements)
    (h : (verify signers deser env p r).isValid = true) :
    ∃ d, deser p.transactionB64 = Except.ok d := by
  cases hd : deser p.transactionB64 with
  | ok d => exact ⟨d, rfl⟩
  | error e =>
    exfalso
    unfold verify at h
    repeat' split at h
    all_goals simp_all [invalidResp, unexpectedResp]

/-- C4: for all byte sequences `a` and `b`, including empty ones, decoding
the encoded payment payload returns exactly `(a, b)`:
`decode(encode(a, b)) = (a, b)`, where encode JSON-serializes
`transaction`/`senderAuthenticator` byte arrays and base64-encodes the
JSON, and decode base64-decodes, JSON-parses, and rebuilds both byte
sequences. -/
theorem codec_decode_encode_roundtrip (t sa : List Nat)
    (ht : ∀ x ∈ t, x < 256) (hs : ∀ x ∈ sa, x < 256) :
    deserializeAptosPaymentBytes (encodeAptosPayload t sa) = some (t, sa) := by
  have hascii := stringifyAptosPayload_ascii t sa
  have hbytes : ∀ b ∈ asciiBytes (stringifyAptosPayload t sa), b < 256 := by
    intro b hb
    simp only [asciiBytes, List.mem_map] at hb
    obtain ⟨c, hc, rfl⟩ := hb
    have := hascii c hc
    omega
  unfold deserializeAptosPaymentBytes encodeAptosPayload
  simp only [base64DecodeChunks_encodeChunks _ hbytes, asciiString?_asciiBytes _ hascii,
    jsonParseEnvelope_stringify, map_mod256_eq_self t ht, map_mod256_eq_self sa hs]

theorem codec_decode_encode_roundtrip_witness :
    deserializeAptosPaymentBytes (encodeAptosPayload [0, 255, 7] []) = some ([0, 255, 7], []) :=
  codec_decode_encode_roundtrip [0, 255, 7] [] (by decide) (by decide)

/-- C1: whenever `requirements.extra.feePayer` is one of the facilitator's
signer addresses and the decoded transaction's sender address is also one
of the facilitator's signer addresses, `verify` returns `isValid = false`
with the fee-payer-transferring-funds reason, regardless of the
transaction's function, type arguments, asset, recipient and amount (the
entry function is unconstrained here): the facilitator never accepts a
sponsored transaction whose sender is a facilitator-controlled address. -/
theorem verify_rejects_facilitator_sender (signers : List String)
    (deser : String → Except Unit DecodedPayment) (env : ChainEnv)
    (p : PaymentPayload) (r : PaymentRequirements) (fp : String) (d : DecodedPayment)
    (fpv : Nat)
    (h1 : p.x402Version = 2) (h2 : p.acceptedScheme = "exact") (h3 : r.scheme = "exact")
    (h4 : p.acceptedNetwork = r.network) (h5 : r.extraFeePayer = some fp) (h6 : fp ≠ "")
    (h7 : fp ∈ signers) (h8 : deser p.transactionB64 = Except.ok d)
    (h9 : parseAddress fp = some fpv) (h10 : d.feePayerAddress = some fpv)
    (h11 : addrToString d.sender ∈ signers) :
    verify signers deser env p r =
      invalidResp "invalid_exact_aptos_payload_fee_payer_transferring_funds"
        (addrToString d.sender) := by
  simp [verify, h1, h2, h3, h4, h5, h6, h7, h8, h9, h10, h11]

theorem verify_rejects_facilitator_sender_witness :
    verify exSigners exDeserSelf exEnvFine exPayload exReqs =
      invalidResp "invalid_exact_aptos_payload_fee_payer_transferring_funds"
        (addrToString 170) :=
  verify_rejects_facilitator_sender exSigners exDeserSelf exEnvFine exPayload exReqs
    exFeePayerStr exDecodedSelf 170 rfl rfl rfl rfl rfl (by decide) (by decide) rfl
    (by decide) rfl (by decide)

/-- C5: `verify` is total across the facilitator boundary: every result is
a structured response (an invalid result always carries a reason), and an
exception raised during validation — here the deserializer throwing once
control has passed the pre-deserialization checks — is caught and
converted into `isValid = false` with the generic unexpected-error reason
rather than propagating. -/
theorem verify_total_and_catches_exceptions (signers : List String)
    (deser : String → Except Unit DecodedPayment) (env : ChainEnv)
    (p : PaymentPayload) (r : PaymentRequirements) :
    ((verify signers deser env p r).isValid = false →
      ((verify signers deser env p r).invalidReason).isSome = true) ∧
    (∀ fp : String, p.x402Version = 2 → p.acceptedScheme = "exact" → r.scheme = "exact" →
      p.acceptedNetwork = r.network → r.extraFeePayer = some fp → fp ≠ "" → fp ∈ signers →
      deser p.transactionB64 = Except.error () →
      verify signers deser env p r = unexpectedResp) := by
  constructor
  · exact verify_inv signers deser env p r
  · intro fp h1 h2 h3 h4 h5 h6 h7 h8
    simp [verify, h1, h2, h3, h4, h5, h6, h7, h8]

theorem verify_total_and_catches_exceptions_witness :
    verify exSigners (fun _ => Except.error ()) exEnvFine exPayload exReqs = unexpectedResp :=
  (verify_total_and_catches_exceptions exSigners (fun _ => Except.error ()) exEnvFine
    exPayload exReqs).2 exFeePayerStr rfl rfl rfl rfl rfl (by decide) (by decide) rfl

/-- C2: `settle` first re-runs `verify` on the same payload and
requirements; whenever that re-verification fails, `settle` returns
`success = false` carrying the verification's fresh invalid reason, and
performs no chain action at all — neither `submitTransaction` nor
`signAndSubmitAsFeePayer` (nor `waitForTransaction`) is invoked. -/
theorem settle_short_circuits_on_failed_verify (signers : List String)
    (deser : String → Except Unit DecodedPayment) (env : SettleEnv)
    (p : PaymentPayload) (r : PaymentRequirements)
    (h : (verify signers deser env.verifyEnv p r).isValid = false) :
    settle signers deser env p r =
      (⟨false, "", p.acceptedNetwork, (verify signers deser env.verifyEnv p r).payer,
        some ((verify signers deser env.verifyEnv p r).invalidReason.getD
          "verification_failed")⟩, []) := by
  unfold settle
  simp [h]

theorem settle_short_circuits_on_failed_verify_witness :
    settle exSigners exDeser exSettleEnvLowBalance exPayload exReqs =
      (⟨false, "", exPayload.acceptedNetwork,
        (verify exSigners exDeser exSettleEnvLowBalance.verifyEnv exPayload exReqs).payer,
        some ((verify exSigners exDeser exSettleEnvLowBalance.verifyEnv exPayload
          exReqs).invalidReason.getD "verification_failed")⟩, []) :=
  settle_short_circuits_on_failed_verify exSigners exDeser exSettleEnvLowBalance exPayload
    exReqs (by decide)

/-- C10: when `settle`'s internal re-verification passes but a later step
throws — the chosen submission call (fee-payer signing and submission for
sponsored payments, plain submission otherwise) or waiting for
confirmation — `settle` does not propagate the exception: it returns
`success = false` with `errorReason` exactly `"transaction_failed"`, an
empty transaction hash, the network echoed from the payload, and the payer
taken from the verification result. -/
theorem settle_later_throw_transaction_failed (signers : List String)
    (deser : String → Except Unit DecodedPayment) (env : SettleEnv)
    (p : PaymentPayload) (r : PaymentRequirements)
    (hv : (verify signers deser env.verifyEnv p r).isValid = true)
    (herr : (if r.extraFeePayer.isSome then env.sponsoredSubmit else env.plainSubmit)
              = Except.error () ∨ env.waitResult = Except.error ()) :
    (settle signers deser env p r).fst =
      ⟨false, "", p.acceptedNetwork, (verify signers deser env.verifyEnv p r).payer,
        some "transaction_failed"⟩ := by
  obtain ⟨d, hd⟩ := verify_valid_deser_ok signers deser env.verifyEnv p r hv
  unfold settle
  cases hsub : (if r.extraFeePayer.isSome then env.sponsoredSubmit else env.plainSubmit) with
  | error u => simp [hv, hd, hsub]
  | ok hash =>
    rcases herr with h1 | h2
    · rw [hsub] at h1
      exact absurd h1 (by simp)
    · cases hw : env.waitResult with
      | error u => simp [hv, hd, hsub, hw]
      | ok u =>
        rw [hw] at h2
        exact absurd h2 (by simp)

theorem settle_later_throw_transaction_failed_witness :
    (settle exSigners exDeser exSettleEnvThrow exPayload exReqs).fst =
      ⟨false, "", exPayload.acceptedNetwork,
        (verify exSigners exDeser exSettleEnvThrow.verifyEnv exPayload exReqs).payer,
        some "transaction_failed"⟩ :=
  settle_later_throw_transaction_failed exSigners exDeser exSettleEnvThrow exPayload exReqs
    (by decide) (Or.inl (by decide))

/-- C3: for an otherwise-valid payment whose decoded transaction differs
from the requirements in exactly one of the asset, the recipient, or the
amount, `verify` returns `isValid = false` with the corresponding specific
mismatch reason — asset mismatch, recipient mismatch or amount mismatch
respectively — not a generic one. -/
theorem verify_specific_mismatch_reasons (signers : List String)
    (deser : String → Except Unit DecodedPayment) (env : ChainEnv)
    (p : PaymentPayload) (r : PaymentRequirements) (fp : String) (d : DecodedPayment)
    (ef : EntryFunctionCall) (fpv : Nat) (a0 a1 a2 : List Nat) (fa ea rv pv amt : Nat)
    (hreach : reachesArgsChecks signers deser p r fp d ef fpv)
    (hm : ef.moduleAddress = 1) (hn : ef.moduleName = "primary_fungible_store")
    (hf : ef.functionName = "transfer") (hty : ef.typeArgsCount = 1)
    (hargs : ef.args = [a0, a1, a2])
    (hfa : addrFromBytes? a0 = some fa) (hea : parseAddress r.asset = some ea)
    (hrv : addrFromBytes? a1 = some rv) (hpv : parseAddress r.payTo = some pv)
    (hamt : u64FromLEBytes? a2 = some amt) :
    ((fa ≠ ea ∧ rv = pv ∧ natToString amt = r.amount →
        verify signers deser env p r =
          invalidResp "invalid_exact_aptos_payload_asset_mismatch" (addrToString d.sender)) ∧
     (fa = ea ∧ rv ≠ pv ∧ natToString amt = r.amount →
        verify signers deser env p r =
          invalidResp "invalid_exact_aptos_payload_recipient_mismatch" (addrToString d.sender)) ∧
     (fa = ea ∧ rv = pv ∧ natToString amt ≠ r.amount →
        verify signers deser env p r =
          invalidResp "invalid_exact_aptos_payload_amount_mismatch" (addrToString d.sender))) := by
  have hv := verify_reaches_args signers deser env p r fp d ef fpv hreach
  refine ⟨?_, ?_, ?_⟩ <;> rintro ⟨hA, hB, hC⟩ <;> rw [hv] <;>
    simp [argsSteps, hm, hn, hf, hty, hargs, hfa, hea, hrv, hpv, hamt, hA, hB, hC]

theorem verify_specific_mismatch_reasons_witness :
    verify exSigners exDeser exEnvFine exPayload exReqsWrongAsset =
      invalidResp "invalid_exact_aptos_payload_asset_mismatch" (addrToString 187) :=
  (verify_specific_mismatch_reasons exSigners exDeser exEnvFine exPayload exReqsWrongAsset
    exFeePayerStr exDecoded exEntryFunction 170 (List.replicate 31 0 ++ [7])
    (List.replicate 31 0 ++ [9]) [100, 0, 0, 0, 0, 0, 0, 0] 7 8 9 9 100
    ⟨rfl, rfl, rfl, rfl, rfl, by decide, by decide, rfl, by decide, rfl, by decide, rfl⟩
    rfl rfl rfl rfl rfl (by decide) (by decide) (by decide) (by decide)
    (by decide)).1 ⟨by decide, rfl, by decide⟩

/-- C6 counterexample: a payment whose decoded transaction is already
expired (expiration 100 is far below now 1000, so it certainly does not
exceed now plus the buffer) and whose sender balance is short is rejected
with the insufficient-balance reason, not the transaction-expired reason:
the code performs the balance pre-check before the expiration check,
contradicting the claimed step order (expiration as step 6 before balance
as step 7). -/
theorem verify_balance_before_expiration_cex :
    verify exSigners exDeser exEnvLowBalance exPayload exReqs =
      invalidResp "invalid_exact_aptos_payload_insufficient_balance" (addrToString 187) ∧
    exDecoded.expirationTimestampSecs < exEnvLowBalance.now + 30 ∧
    invalidResp "invalid_exact_aptos_payload_insufficient_balance" (addrToString 187) ≠
      invalidResp "invalid_exact_aptos_payload_transaction_expired" (addrToString 187) :=
  ⟨by decide, by decide, by decide⟩

/-- C6 (amended): on a payment passing every check up to and including the
amount equality, verification is a short-circuiting ordered checklist with
distinct reasons in which the balance pre-check runs first (its failure
rejects with the insufficient-balance reason regardless of expiration),
then the expiration check rejects exactly the transactions whose
expiration timestamp is strictly below now plus the 30-second buffer, and
only then simulation decides the outcome. -/
theorem verify_order_balance_then_expiration_then_simulation (signers : List String)
    (deser : String → Except Unit DecodedPayment) (env : ChainEnv)
    (p : PaymentPayload) (r : PaymentRequirements) (fp : String) (d : DecodedPayment)
    (ef : EntryFunctionCall) (fpv : Nat) (a0 a1 a2 : List Nat) (v1 v2 amt : Nat)
    (hreach : reachesArgsChecks signers deser p r fp d ef fpv)
    (hm : ef.moduleAddress = 1) (hn : ef.moduleName = "primary_fungible_store")
    (hf : ef.functionName = "transfer") (hty : ef.typeArgsCount = 1)
    (hargs : ef.args = [a0, a1, a2])
    (hfa : addrFromBytes? a0 = some v1) (hea : parseAddress r.asset = some v1)
    (hrv : addrFromBytes? a1 = some v2) (hpv : parseAddress r.payTo = some v2)
    (hamt : u64FromLEBytes? a2 = some amt) (hastr : natToString amt = r.amount) :
    ((∀ bal req, env.balanceQuery = Except.ok bal → natOfDigits? r.amount = some req →
        bal < req →
        verify signers deser env p r =
          invalidResp "invalid_exact_aptos_payload_insufficient_balance"
            (addrToString d.sender)) ∧
     (∀ bal req, env.balanceQuery = Except.ok bal → natOfDigits? r.amount = some req →
        req ≤ bal → d.expirationTimestampSecs < env.now + 30 →
        verify signers deser env p r =
          invalidResp "invalid_exact_aptos_payload_transaction_expired"
            (addrToString d.sender)) ∧
     (env.balanceQuery = Except.error () → d.expirationTimestampSecs < env.now + 30 →
        verify signers deser env p r =
          invalidResp "invalid_exact_aptos_payload_transaction_expired"
            (addrToString d.sender)) ∧
     (∀ bal req, env.balanceQuery = Except.ok bal → natOfDigits? r.amount = some req →
        req ≤ bal → env.now + 30 ≤ d.expirationTimestampSecs →
        verify signers deser env p r = simulationStep env (addrToString d.sender)) ∧
     ("invalid_exact_aptos_payload_insufficient_balance" ≠
        "invalid_exact_aptos_payload_transaction_expired" ∧
      "invalid_exact_aptos_payload_insufficient_balance" ≠
        "invalid_exact_aptos_payload_simulation_failed: " ∧
      "invalid_exact_aptos_payload_transaction_expired" ≠
        "invalid_exact_aptos_payload_simulation_failed: ")) := by
  have hv := verify_reaches_args signers deser env p r fp d ef fpv hreach
  refine ⟨?_, ?_, ?_, ?_, by decide, by decide, by decide⟩
  · intro bal req hb hreq hlt
    rw [hv]
    simp [argsSteps, hm, hn, hf, hty, hargs, hfa, hea, hrv, hpv, hamt, hastr,
      balanceStep, hb, hreq, hlt]
  · intro bal req hb hreq hle hexp
    rw [hv]
    simp [argsSteps, hm, hn, hf, hty, hargs, hfa, hea, hrv, hpv, hamt, hastr,
      balanceStep, hb, hreq, Nat.not_lt.mpr hle, expirationStep, hexp]
  · intro hb hexp
    rw [hv]
    simp [argsSteps, hm, hn, hf, hty, hargs, hfa, hea, hrv, hpv, hamt, hastr,
      balanceStep, hb, expirationStep, hexp]
  · intro bal req hb hreq hle hnexp
    rw [hv]
    simp [argsSteps, hm, hn, hf, hty, hargs, hfa, hea, hrv, hpv, hamt, hastr,
      balanceStep, hb, hreq, Nat.not_lt.mpr hle, expirationStep, Nat.not_lt.mpr hnexp]

theorem verify_order_witness :
    verify exSigners exDeser exEnvExpired exPayload exReqs =
      invalidResp "invalid_exact_aptos_payload_transaction_expired" (addrToString 187) :=
  (verify_order_balance_then_expiration_then_simulation exSigners exDeser exEnvExpired
    exPayload exReqs exFeePayerStr exDecoded exEntryFunction 170
    (List.replicate 31 0 ++ [7]) (List.replicate 31 0 ++ [9]) [100, 0, 0, 0, 0, 0, 0, 0]
    7 9 100
    ⟨rfl, rfl, rfl, rfl, rfl, by decide, by decide, rfl, by decide, rfl, by decide, rfl⟩
    rfl rfl rfl rfl rfl (by decide) (by decide) (by decide) (by decide) (by decide)
    (by decide)).2.1 1000000 100 rfl (by decide) (by decide) (by decide)

/-- C8: a thrown best-effort balance query never by itself invalidates a
payment: `verify` with a throwing balance query returns exactly what it
returns when the query reports any balance covering the required amount —
the error is swallowed and the later steps (expiration, then simulation,
the final arbiter) decide the outcome. -/
theorem verify_balance_failure_harmless (signers : List String)
    (deser : String → Except Unit DecodedPayment) (env : ChainEnv)
    (p : PaymentPayload) (r : PaymentRequirements) (b : Nat)
    (herr : env.balanceQuery = Except.error ())
    (hb : ∀ req, natOfDigits? r.amount = some req → req ≤ b) :
    verify signers deser env p r =
      verify signers deser { env with balanceQuery := Except.ok b } p r := by
  have hbal : ∀ (e : Nat) (payer : String), balanceStep env r.amount e payer =
      balanceStep { env with balanceQuery := Except.ok b } r.amount e payer := by
    intro e payer
    unfold balanceStep
    cases hreq : natOfDigits? r.amount with
    | none =>
      simp only [herr, hreq]
      rfl
    | some req =>
      have hle : ¬ b < req := Nat.not_lt.mpr (hb req hreq)
      simp only [herr, hreq, if_neg hle]
      rfl
  have hargs : ∀ (d : DecodedPayment) (ef : EntryFunctionCall) (payer : String),
      argsSteps env r d ef payer =
        argsSteps { env with balanceQuery := Except.ok b } r d ef payer := by
    intro d ef payer
    unfold argsSteps
    repeat' split
    all_goals first
      | rfl
      | exact hbal _ _
  unfold verify
  repeat' split
  all_goals first
    | rfl
    | exact hargs _ _ _

/-- C7 counterexample: a requirements record whose amount is spelled
`"0100"` — denoting the same number 100 that the transaction's u64
argument carries — is rejected with the amount-mismatch reason even though
every field matches in value: the amount comparison is a raw string
comparison against the canonical decimal of the u64, not a comparison of
canonically decoded values, so representations differing only in a
leading zero produce a mismatch rejection. -/
theorem verify_amount_leading_zero_mismatch_cex :
    verify exSigners exDeser exEnvFine exPayload exReqsPadded =
      invalidResp "invalid_exact_aptos_payload_amount_mismatch" (addrToString 187) ∧
    natOfDigits? exReqsPadded.amount = some 100 ∧
    u64FromLEBytes? [100, 0, 0, 0, 0, 0, 0, 0] = some 100 :=
  ⟨by decide, by decide, by decide⟩

/-- C7 (amended): the asset and payTo comparisons are performed on
canonically decoded address values — so `verify` cannot distinguish two
representations of the same address value in the requirements, whether
they differ in leading zeros or padding — but the amount comparison
matches the canonical decimal rendering of the transaction's u64 against
the literal requirements string, so a requirements amount in any
non-canonical spelling (for example with a leading zero) is rejected as an
amount mismatch even when it denotes the very same number. -/
theorem verify_canonical_addresses_literal_amount (signers : List String)
    (deser : String → Except Unit DecodedPayment) (env : ChainEnv)
    (p : PaymentPayload) (r : PaymentRequirements) (asset1 payTo1 : String)
    (ha : parseAddress asset1 = parseAddress r.asset)
    (hp : parseAddress payTo1 = parseAddress r.payTo) :
    (verify signers deser env p { r with asset := asset1, payTo := payTo1 } =
       verify signers deser env p r) ∧
    (∀ (fp : String) (d : DecodedPayment) (ef : EntryFunctionCall) (fpv : Nat)
       (a0 a1 a2 : List Nat) (v1 v2 amt : Nat),
       reachesArgsChecks signers deser p r fp d ef fpv →
       ef.moduleAddress = 1 → ef.moduleName = "primary_fungible_store" →
       ef.functionName = "transfer" → ef.typeArgsCount = 1 → ef.args = [a0, a1, a2] →
       addrFromBytes? a0 = some v1 → parseAddress r.asset = some v1 →
       addrFromBytes? a1 = some v2 → parseAddress r.payTo = some v2 →
       u64FromLEBytes? a2 = some amt →
       natOfDigits? r.amount = some amt →
       natToString amt ≠ r.amount →
       verify signers deser env p r =
         invalidResp "invalid_exact_aptos_payload_amount_mismatch" (addrToString d.sender)) := by
  have hargs2 : ∀ (d : DecodedPayment) (ef : EntryFunctionCall) (payer : String),
      argsSteps env { r with asset := asset1, payTo := payTo1 } d ef payer =
        argsSteps env r d ef payer := by
    intro d ef payer
    unfold argsSteps
    simp only [ha, hp]
  constructor
  · simp only [verify]
    repeat' split
    all_goals first
      | rfl
      | exact hargs2 _ _ _
  · intro fp d ef fpv a0 a1 a2 v1 v2 amt hreach hm hn hf hty hargs hfa hea hrv hpv hamt
      _hparse hneq
    have hv := verify_reaches_args signers deser env p r fp d ef fpv hreach
    rw [hv]
    simp [argsSteps, hm, hn, hf, hty, hargs, hfa, hea, hrv, hpv, hamt, hneq]

theorem verify_canonical_addresses_witness :
    verify exSigners exDeser exEnvFine exPayload { exReqs with asset := "0x7", payTo := "0x9" } =
      verify exSigners exDeser exEnvFine exPayload exReqs :=
  (verify_canonical_addresses_literal_amount exSigners exDeser exEnvFine exPayload exReqs
    "0x7" "0x9" (by decide) (by decide)).1

theorem verify_balance_failure_harmless_witness :
    verify exSigners exDeser exEnvBalanceThrow exPayload exReqs =
      verify exSigners exDeser { exEnvBalanceThrow with balanceQuery := Except.ok 100 }
        exPayload exReqs :=
  verify_balance_failure_harmless exSigners exDeser exEnvBalanceThrow exPayload exReqs 100
    rfl (fun req h => by
      have h100 : natOfDigits? exReqs.amount = some 100 := by decide
      rw [h100] at h
      injection h with h'
      omega)

theorem splitOnDot_ne_nil (cs : List Char) : splitOnDot cs ≠ [] := by
  cases cs with
  | nil => simp [splitOnDot]
  | cons c t =>
    simp only [splitOnDot]
    by_cases hc : c = '.'
    · simp [hc]
    · rw [if_neg hc]
      cases h : splitOnDot t with
      | nil => simp
      | cons p ps => simp

theorem splitOnDot_append_dot (w : List Char) (hw : '.' ∉ w) (rest : List Char) :
    splitOnDot (w ++ '.' :: rest) = w :: splitOnDot rest := by
  induction w with
  | nil => simp [splitOnDot]
  | cons c w1 ih =>
    have hc : c ≠ '.' := fun h => hw (by simp [h])
    have hw1 : '.' ∉ w1 := fun h => hw (by simp [h])
    simp only [List.cons_append, splitOnDot, if_neg hc, List.append_eq]
    rw [ih hw1]

theorem splitOnDot_head_append (f g : List Char) (hf : '.' ∉ f) :
    (splitOnDot (f ++ g)).headD [] = f ++ (splitOnDot g).headD [] := by
  induction f with
  | nil => simp
  | cons c f1 ih =>
    have hc : c ≠ '.' := fun h => hf (by simp [h])
    have hf1 : '.' ∉ f1 := fun h => hf (by simp [h])
    simp only [List.cons_append, splitOnDot, if_neg hc]
    cases hsp : splitOnDot (f1 ++ g) with
    | nil => exact absurd hsp (splitOnDot_ne_nil _)
    | cons p ps =>
      have hh := ih hf1
      rw [hsp] at hh
      simp at hh
      simp [hh]

theorem firstSome_all_none (l : List (Option AssetAmount)) (h : ∀ x ∈ l, x = none) :
    firstSome l = none := by
  induction l with
  | nil => rfl
  | cons x t ih =>
    have hx := h x (by simp)
    subst hx
    simp only [firstSome]
    exact ih (fun y hy => h y (by simp [hy]))

theorem take_padEnd_of_le (f t : List Char) (hlen : 6 ≤ f.length) :
    (padEndChars (f ++ t) 6 '0').take 6 = f.take 6 := by
  unfold padEndChars
  have h0 : 6 - (f ++ t).length = 0 := by simp; omega
  rw [h0]
  simp only [List.replicate, List.append_nil]
  exact List.take_append_of_le_length hlen

/-- C9: `parsePrice` on a decimal money price runs the registered custom
money parsers in registration order and takes the first non-declining
result; if all decline it falls back to the default USDC conversion, which
scales the decimal amount to atomic units at 6-decimal fixed-point
precision, truncating (never rounding) fractional digits beyond that
precision; in particular a decimal price of 1.50 resolves to atomic amount
`"1500000"` against the network's USDC asset. -/
theorem parsePrice_chain_and_default_truncation :
    (∀ (pre post : List (Option AssetAmount)) (res : AssetAmount) (s net : String),
       (∀ x ∈ pre, x = none) →
       parsePriceMoney (pre ++ some res :: post) s net = some res) ∧
    (∀ (results : List (Option AssetAmount)) (s net : String),
       (∀ x ∈ results, x = none) →
       parsePriceMoney results s net = defaultMoneyConversion s net) ∧
    defaultMoneyConversion "1.5" "aptos:1" = some ⟨"1500000", USDC_MAINNET_FA⟩ ∧
    defaultMoneyConversion "1.50" "aptos:1" = some ⟨"1500000", USDC_MAINNET_FA⟩ ∧
    defaultMoneyConversion "1.5" "aptos:2" = some ⟨"1500000", USDC_TESTNET_FA⟩ ∧
    convertToTokenAmount "0.9999999" 6 = some "999999" ∧
    (∀ w f g : List Char, '.' ∉ w → 6 ≤ f.length → '.' ∉ f →
       convertToTokenAmount ⟨w ++ '.' :: (f ++ g)⟩ 6 =
         convertToTokenAmount ⟨w ++ '.' :: f⟩ 6) := by
  refine ⟨?_, ?_, by decide, by decide, by decide, by decide, ?_⟩
  · intro pre post res s net h
    induction pre with
    | nil => simp [parsePriceMoney, firstSome]
    | cons x t ih =>
      have hx := h x (by simp)
      subst hx
      simp only [List.cons_append, parsePriceMoney, firstSome]
      exact ih (fun y hy => h y (by simp [hy]))
  · intro results s net h
    simp [parsePriceMoney, firstSome_all_none results h]
  · intro w f g hw hlen hf
    unfold convertToTokenAmount
    rw [show (String.mk (w ++ '.' :: (f ++ g))).data = w ++ '.' :: (f ++ g) from rfl]
    rw [show (String.mk (w ++ '.' :: f)).data = w ++ '.' :: f from rfl]
    rw [splitOnDot_append_dot w hw (f ++ g), splitOnDot_append_dot w hw f]
    cases hsp : splitOnDot (f ++ g) with
    | nil => exact absurd hsp (splitOnDot_ne_nil _)
    | cons p ps =>
      cases hspf : splitOnDot f with
      | nil => exact absurd hspf (splitOnDot_ne_nil _)
      | cons q qs =>
        have hp : p = f ++ (splitOnDot g).headD [] := by
          have hh := splitOnDot_head_append f g hf
          rw [hsp] at hh
          simpa using hh
        have hq : q = f := by
          have hh := splitOnDot_head_append f [] hf
          rw [List.append_nil, hspf] at hh
          simpa [splitOnDot] using hh
        simp only [List.headD_cons, List.getElem?_cons_succ, List.getElem?_cons_zero,
          Option.getD_some]
        rw [hp, hq]
        rw [take_padEnd_of_le f ((splitOnDot g).headD []) hlen]
        rw [show padEndChars f 6 '0' = f ++ List.replicate (6 - f.length) '0' from rfl]
        rw [show 6 - f.length = 0 by omega]
        simp only [List.replicate, List.append_nil]

theorem parsePrice_chain_witness :
    parsePriceMoney [none] "1.5" "aptos:1" = defaultMoneyConversion "1.5" "aptos:1" ∧
    parsePriceMoney [none, some ⟨"42", "0xabc"⟩, some ⟨"7", "0xdef"⟩] "1.5" "aptos:1" =
      some ⟨"42", "0xabc"⟩ ∧
    convertToTokenAmount ⟨"0".data ++ '.' :: ("123456".data ++ "78".data)⟩ 6 =
      convertToTokenAmount ⟨"0".data ++ '.' :: "123456".data⟩ 6 :=
  ⟨parsePrice_chain_and_default_truncation.2.1 [none] "1.5" "aptos:1" (by decide),
   parsePrice_chain_and_default_truncation.1 [none] [some ⟨"7", "0xdef"⟩] ⟨"42", "0xabc"⟩
     "1.5" "aptos:1" (by decide),
   parsePrice_chain_and_default_truncation.2.2.2.2.2.2 "0".data "123456".data "78".data
     (by decide) (by decide) (by decide)⟩

end X402Aptos
